import Mathlib

/-!
Verification development for the Ballancier physics core.

The definitions below are a shallow embedding, into Lean over `ℝ`, of
`src/js/collision.mjs` (narrow-phase collision detector) and of the
physics integrator `step` (the physics module, `src/unnamed/part_001`).
JavaScript numbers are modelled as real numbers; `Math.sqrt`/`Math.hypot`
become `Real.sqrt`, `Math.max`/`Math.min`/`Math.abs` become `max`/`min`/`|·|`.
Host-side option defaulting (`opts.gravity ?? 0.2`, `opts.bounds || {0,0}`,
`o.thickness || 0`, ...) only chooses which concrete number reaches the core,
so option records carry the post-defaulting values and every theorem
quantifies over all of them.
-/

noncomputable section

namespace Ballancier

/-- Body state `{ x, y, dx, dy, speed, r, vx, vy }`.  The explicit velocity
components `vx`, `vy` may be absent (`typeof state.vx === 'number'` fails on
the first frame), hence `Option ℝ`. -/
structure BodyState where
  x : ℝ
  y : ℝ
  dx : ℝ
  dy : ℝ
  speed : ℝ
  r : ℝ
  vx : Option ℝ
  vy : Option ℝ

/-- World bounds `{ width, height }`. -/
structure Bounds where
  width : ℝ
  height : ℝ

/-- Step configuration after `??`-defaulting.  `friction` is carried although
the integrator only ever reads it as the host-side default of
`tangentialFriction`; `tangentialFriction` here is the resolved value. -/
structure StepOpts where
  gravity : ℝ
  friction : ℝ
  bounds : Bounds
  stopThreshold : ℝ
  restitution : ℝ
  tangentialFriction : ℝ
  tangentialRetention : ℝ

/-- Obstacle descriptors built fresh by the host each frame.  A segment
carries `thickness`, `angularVelocity`, `centerX`, `centerY` (the host always
supplies all of them; an absent `angularVelocity` behaves as `0` because the
integrator guards with `!== undefined && !== 0`).  Rectangles carry no
rotation data. -/
inductive Obstacle
  | segment (x1 y1 x2 y2 thickness angularVelocity centerX centerY : ℝ)
  | rect (x y w h : ℝ)

/-- Angular velocity as read by the integrator: `o.angularVelocity`, which is
`undefined` (≡ 0 under the integrator's guard) for rectangles. -/
def Obstacle.angularVelocity : Obstacle → ℝ
  | .segment _ _ _ _ _ ω _ _ => ω
  | .rect _ _ _ _ => 0

/-- Rotation-center x.  Only ever read when `angularVelocity ≠ 0`, which never
holds for rectangles, so the value returned for them is irrelevant. -/
def Obstacle.centerX : Obstacle → ℝ
  | .segment _ _ _ _ _ _ cX _ => cX
  | .rect _ _ _ _ => 0

/-- Rotation-center y; same remark as for `Obstacle.centerX`. -/
def Obstacle.centerY : Obstacle → ℝ
  | .segment _ _ _ _ _ _ _ cY => cY
  | .rect _ _ _ _ => 0

/-- Thickness of a segment obstacle; rectangles have none. -/
def Obstacle.thickness : Obstacle → ℝ
  | .segment _ _ _ _ th _ _ _ => th
  | .rect _ _ _ _ => 0

/-- Nonnegativity of the (segment) thickness, trivially true for rectangles. -/
def Obstacle.thicknessNonneg : Obstacle → Prop
  | .segment _ _ _ _ th _ _ _ => 0 ≤ th
  | .rect _ _ _ _ => True

/-- Result record of `closestPointOnSegment`: `{ x, y, t }`. -/
structure SegPoint where
  x : ℝ
  y : ℝ
  t : ℝ

/-- Transcription of `closestPointOnSegment(px, py, x1, y1, x2, y2)`
(collision.mjs lines 1-8). -/
def closestPointOnSegment (px py x1 y1 x2 y2 : ℝ) : SegPoint :=
  let vx := x2 - x1
  let vy := y2 - y1
  let denom := vx * vx + vy * vy
  if denom = 0 then ⟨x1, y1, 0⟩
  else
    let t := max 0 (min 1 (((px - x1) * vx + (py - y1) * vy) / denom))
    ⟨x1 + vx * t, y1 + vy * t, t⟩

/-- Contact record pushed by the detector:
`{ source, kind, cp, dist, nx, ny, penetration }`. -/
structure Hit where
  source : Obstacle
  kind : String
  cpx : ℝ
  cpy : ℝ
  dist : ℝ
  nx : ℝ
  ny : ℝ
  penetration : ℝ

/-- Body of the detector loop for one obstacle (collision.mjs lines 14-39):
returns the hit pushed for this obstacle, if any.  `o.thickness || 0` and
`Math.sqrt(d2) || 0` are identities in the real-number model. -/
def hitFor (cx cy cr : ℝ) (o : Obstacle) : Option Hit :=
  match o with
  | .segment x1 y1 x2 y2 thickness _ _ _ =>
      let cp := closestPointOnSegment cx cy x1 y1 x2 y2
      let dxp := cx - cp.x
      let dyp := cy - cp.y
      let dist2 := dxp * dxp + dyp * dyp
      let dist := Real.sqrt dist2
      let rEff := cr + thickness / 2
      if dist2 ≤ rEff * rEff then
        some { source := o, kind := "segment", cpx := cp.x, cpy := cp.y, dist := dist,
               nx := if dist = 0 then 0 else dxp / dist,
               ny := if dist = 0 then 0 else dyp / dist,
               penetration := rEff - dist }
      else none
  | .rect x y w h =>
      let closestX := max x (min cx (x + w))
      let closestY := max y (min cy (y + h))
      let dx := cx - closestX
      let dy := cy - closestY
      let d2 := dx * dx + dy * dy
      if d2 ≤ cr * cr then
        let dist := Real.sqrt d2
        some { source := o, kind := "rect", cpx := closestX, cpy := closestY, dist := dist,
               nx := if dist = 0 then 0 else dx / dist,
               ny := if dist = 0 then 0 else dy / dist,
               penetration := cr - dist }
      else none

/-- Transcription of `checkCircleCollisions(cx, cy, cr, obstacles)`
(collision.mjs lines 10-43): one pass over the obstacle list, pushing at most
one hit per obstacle, in list order. -/
def checkCircleCollisions (cx cy cr : ℝ) : List Obstacle → List Hit
  | [] => []
  | o :: rest =>
      match hitFor cx cy cr o with
      | some h => h :: checkCircleCollisions cx cy cr rest
      | none => checkCircleCollisions cx cy cr rest

/-- Model of `hits.sort((a,b) => (b.penetration||0)-(a.penetration||0))`
followed by `hits[0]`: JavaScript's sort is stable and the comparator orders
by descending penetration, so the element taken is the first one, in original
order, attaining the maximal penetration. -/
def dominantHit (h : Hit) : List Hit → Hit
  | [] => h
  | h2 :: rest => dominantHit (if h.penetration < h2.penetration then h2 else h) rest

/-- Obstacle velocity at the contact point (physics module lines 74-88):
zero unless the obstacle carries a non-zero angular velocity, in which case
`(obsVx, obsVy) = (-ω·Δy, ω·Δx)` about the rotation center. -/
def obsVelAt (o : Obstacle) (cpx cpy : ℝ) : ℝ × ℝ :=
  if o.angularVelocity ≠ 0 then
    let dx_center := cpx - o.centerX
    let dy_center := cpy - o.centerY
    (-o.angularVelocity * dy_center, o.angularVelocity * dx_center)
  else (0, 0)

/-- Final normal-velocity scalar (physics module lines 90-122): relative
velocity along the raw hit normal, two-branch impact/resting policy with
threshold `-0.10`. -/
def new_vn_scalar (vx0 vy0 gravity restitution obsVx obsVy nx ny : ℝ) : ℝ :=
  let v_rel_x := vx0 - obsVx
  let v_rel_y := vy0 - obsVy
  let vDotN_rel := v_rel_x * nx + v_rel_y * ny
  let vObsDotN := obsVx * nx + obsVy * ny
  let vDotN_gravity := vx0 * nx + (vy0 + gravity) * ny
  if vDotN_rel < -(0.10 : ℝ) then
    -vDotN_rel * restitution + vObsDotN
  else if 0 < vDotN_gravity then
    vDotN_gravity
  else
    vObsDotN

/-- Final absolute tangential-velocity scalar (physics module lines 129-157),
taking the unit tangent `(tx, ty)`: friction and retention blend on the
relative tangential speed, back to the absolute frame, then the anti-creep
clamp. -/
def vAlongFinal (gravity tangentialFriction tangentialRetention vx0 vy0 obsVx obsVy tx ty : ℝ) : ℝ :=
  let gravityAlong := gravity * ty
  let vObsDotT := obsVx * tx + obsVy * ty
  let vDotT_rel_base := (vx0 - obsVx) * tx + (vy0 - obsVy) * ty
  let vAlong_rel0 := vDotT_rel_base + gravityAlong
  let vAlong_rel1 := vAlong_rel0 * tangentialFriction
  let vAlong_rel2 := vAlong_rel1 * (1 - tangentialRetention) + vDotT_rel_base * tangentialRetention
  let vAlong := vAlong_rel2 + vObsDotT
  if |vAlong| < (0.02 : ℝ) ∧ vAlong * ty < 0 then 0 else vAlong

/-- Step result `{ x, y, dx, dy, speed, vx, vy, contact }`. -/
structure StepResult where
  x : ℝ
  y : ℝ
  dx : ℝ
  dy : ℝ
  speed : ℝ
  vx : ℝ
  vy : ℝ
  contact : Bool

/-- Shared tail of the contact and airborne branches (physics module lines
176-181 and 189-194): recompute `speed`, `dx`, `dy` from the outgoing
velocity, forcing a full stop below `stopThreshold`. -/
def finalizeState (stopThreshold newX newY vx vy : ℝ) (contact : Bool) : StepResult :=
  let s := Real.sqrt (vx * vx + vy * vy)
  if s < stopThreshold then
    ⟨newX, newY, 0, 0, 0, 0, 0, contact⟩
  else
    ⟨newX, newY, vx / s, vy / s, s, vx, vy, contact⟩

/-- Contact branch of the integrator (physics module lines 50-183), applied to
the dominant hit.  Notes kept from the source: the `hits.type === "rect"`
gravity-revert (lines 52-54) reads a property of the hits *array*, which is
always `undefined`, so that branch never executes and is not modelled; the
fallbacks `h.nx ?? 0`, `h.ny ?? -1`, `h.penetration || 0` are identities
because the detector always sets those fields. -/
def resolveContact (opts : StepOpts) (vx0 vy0 newX newY : ℝ) (h : Hit) : StepResult :=
  let nx := h.nx
  let ny := h.ny
  let pen := max 0 h.penetration
  -- push out of penetration
  let newX := newX + nx * pen
  let newY := newY + ny * pen
  -- tangent vector (unit); `Math.hypot(tx,ty) || 1` guards the zero normal
  let tx := -ny
  let ty := nx
  let tlen0 := Real.sqrt (tx * tx + ty * ty)
  let tlen := if tlen0 = 0 then 1 else tlen0
  let tx := tx / tlen
  let ty := ty / tlen
  let obsV := obsVelAt h.source h.cpx h.cpy
  let vn := new_vn_scalar vx0 vy0 opts.gravity opts.restitution obsV.1 obsV.2 nx ny
  let new_vn_x := nx * vn
  let new_vn_y := ny * vn
  let vAlong := vAlongFinal opts.gravity opts.tangentialFriction opts.tangentialRetention
                  vx0 vy0 obsV.1 obsV.2 tx ty
  -- outgoing velocity = tangent direction * vAlong + normal component
  let outVx := tx * vAlong + new_vn_x
  let outVy := ty * vAlong + new_vn_y
  -- defensive: remove any residual velocity pushing into the surface
  let outDotN := outVx * nx + outVy * ny
  let outVx := if outDotN < 0 then outVx - nx * outDotN else outVx
  let outVy := if outDotN < 0 then outVy - ny * outDotN else outVy
  finalizeState opts.stopThreshold newX newY outVx outVy true

/-- Transcription of `step(state, obstacles, opts)` (the physics module).
The bounds checks on lines 30-33 rewrite only the local `dx`, `dy`, which are
recomputed from `vx`, `vy` in every return path, exactly as in the source. -/
def step (state : BodyState) (obstacles : List Obstacle) (opts : StepOpts) : StepResult :=
  let gravity := opts.gravity
  let bounds := opts.bounds
  let stopThreshold := opts.stopThreshold
  let x := state.x
  let y := state.y
  let dx := state.dx
  let dy := state.dy
  let speed := state.speed
  let r := state.r
  -- preserve explicit velocity components across frames if present
  let vx := state.vx.getD (dx * speed)
  let vy := state.vy.getD (dy * speed)
  -- simple bounds handling (lines 30-33)
  let dx := if x ≥ bounds.width - r ∧ 0 < dx then -|dx| else dx
  let dx := if x ≤ r ∧ dx < 0 then |dx| else dx
  let dy := if y ≥ bounds.height - r ∧ 0 < dy then -|dy| else dy
  let dy := if y ≤ r ∧ dy < 0 then |dy| else dy
  -- base velocity (without gravity) taken from vx, vy
  let vx0 := vx
  let vy0 := vy
  -- include gravity for integration/detection
  let vxFor := vx0
  let vyFor := vy0 + gravity
  let newX := x + vxFor
  let newY := y + vyFor
  match checkCircleCollisions newX newY r obstacles with
  | [] =>
      -- airborne: vx carried forward, gravity applied to vy
      finalizeState stopThreshold newX newY vxFor vyFor false
  | hfirst :: hrest =>
      resolveContact opts vx0 vy0 newX newY (dominantHit hfirst hrest)

/-- Working x-velocity derived on entry to `step` (line 26). -/
def workVx (s : BodyState) : ℝ := s.vx.getD (s.dx * s.speed)

/-- Working y-velocity derived on entry to `step` (line 27). -/
def workVy (s : BodyState) : ℝ := s.vy.getD (s.dy * s.speed)

/-- Gravity-advanced tentative x position (line 42). -/
def tentativeX (s : BodyState) (opts : StepOpts) : ℝ := s.x + workVx s

/-- Gravity-advanced tentative y position (line 43). -/
def tentativeY (s : BodyState) (opts : StepOpts) : ℝ := s.y + (workVy s + opts.gravity)

/-- Spec-side normal-response policy, written from the spec's words: hard
incoming impact (relative normal velocity more negative than −0.10) gives
reflection scaled by restitution plus the obstacle's normal velocity;
otherwise a separating gravity-inclusive normal velocity is kept, and a
resting body gets exactly the obstacle's normal velocity. -/
def specNormalScalar (vRelN vObsN vGravN restitution : ℝ) : ℝ :=
  if vRelN < -(0.10 : ℝ) then -vRelN * restitution + vObsN
  else if 0 < vGravN then vGravN
  else vObsN

/-- Spec-side obstacle contact-point velocity, written from the spec's words:
the 2D cross product of angular velocity with the vector from the obstacle
center to the contact point, `(-ω·Δy, ω·Δx)`, and zero for non-rotating
(rectangle) obstacles. -/
def specObsVel : Obstacle → ℝ → ℝ → ℝ × ℝ
  | .segment _ _ _ _ _ ω cX cY, cpx, cpy => (-ω * (cpy - cY), ω * (cpx - cX))
  | .rect _ _ _ _, _, _ => (0, 0)

/-- Spec-side tangential-response policy, written from the spec's words:
(relative tangential velocity + gravity on the tangent) scaled by tangential
friction, blended with the raw pre-friction relative tangential velocity by
the retention fraction, plus the obstacle's tangential velocity; a resulting
magnitude below 0.02 whose sign opposes the tangent's vertical component is
set to exactly 0. -/
def specTangentialScalar (gravity tangentialFriction retention vRelT vObsT ty : ℝ) : ℝ :=
  let blended := ((vRelT + gravity * ty) * tangentialFriction) * (1 - retention) + vRelT * retention
  let out := blended + vObsT
  if |out| < (0.02 : ℝ) ∧ out * ty < 0 then 0 else out

/-- Body-state invariant claimed by the spec: either `(dx, dy, speed)` are the
unit direction and magnitude of `(vx, vy)`, or all five are simultaneously
zero. -/
def SpeedInvariant (res : StepResult) : Prop :=
  (res.dx = 0 ∧ res.dy = 0 ∧ res.speed = 0 ∧ res.vx = 0 ∧ res.vy = 0) ∨
  (res.speed = Real.sqrt (res.vx ^ 2 + res.vy ^ 2) ∧ 0 < res.speed ∧
    res.dx = res.vx / res.speed ∧ res.dy = res.vy / res.speed ∧
    res.dx ^ 2 + res.dy ^ 2 = 1)

/-- Closest obstacle point queried by the detector: parametric projection for
segments, box clamp for rectangles. -/
def closestPt (cx cy : ℝ) : Obstacle → ℝ × ℝ
  | .segment x1 y1 x2 y2 _ _ _ _ =>
      ((closestPointOnSegment cx cy x1 y1 x2 y2).x, (closestPointOnSegment cx cy x1 y1 x2 y2).y)
  | .rect x y w h => (max x (min cx (x + w)), max y (min cy (y + h)))

/-- Effective collision radius: body radius plus half obstacle thickness for
segments, body radius alone for rectangles. -/
def effRadius (cr : ℝ) : Obstacle → ℝ
  | .segment _ _ _ _ th _ _ _ => cr + th / 2
  | .rect _ _ _ _ => cr

/-- Euclidean distance from the body center to the closest obstacle point. -/
def distToObstacle (cx cy : ℝ) (o : Obstacle) : ℝ :=
  Real.sqrt ((cx - (closestPt cx cy o).1) * (cx - (closestPt cx cy o).1)
    + (cy - (closestPt cx cy o).2) * (cy - (closestPt cx cy o).2))

/-- Unfolding of `step` through the named entry quantities: the detector runs
once against the gravity-advanced tentative position, and the dominant hit of
a non-empty hit list is resolved. -/
lemma step_def (s : BodyState) (obs : List Obstacle) (opts : StepOpts) :
    step s obs opts =
      match checkCircleCollisions (tentativeX s opts) (tentativeY s opts) s.r obs with
      | [] => finalizeState opts.stopThreshold (tentativeX s opts) (tentativeY s opts)
                (workVx s) (workVy s + opts.gravity) false
      | hf :: hr => resolveContact opts (workVx s) (workVy s)
                (tentativeX s opts) (tentativeY s opts) (dominantHit hf hr) := rfl

/-- The shared finalization step establishes the invariant. -/
lemma finalizeState_speedInvariant (st nX nY vx vy : ℝ) (c : Bool) :
    SpeedInvariant (finalizeState st nX nY vx vy c) := by
  unfold finalizeState SpeedInvariant
  by_cases hlt : Real.sqrt (vx * vx + vy * vy) < st
  · simp [hlt]
  · rw [if_neg hlt]
    by_cases h0 : Real.sqrt (vx * vx + vy * vy) = 0
    · left
      have harg : vx * vx + vy * vy ≤ 0 := Real.sqrt_eq_zero'.mp h0
      have hx : vx = 0 := by nlinarith [sq_nonneg vx, sq_nonneg vy]
      have hy : vy = 0 := by nlinarith [sq_nonneg vx, sq_nonneg vy]
      simp [h0, hx, hy]
    · right
      have hpos : 0 < Real.sqrt (vx * vx + vy * vy) :=
        lt_of_le_of_ne (Real.sqrt_nonneg _) (Ne.symm h0)
      have harg : vx * vx + vy * vy = vx ^ 2 + vy ^ 2 := by ring
      have hsq : Real.sqrt (vx * vx + vy * vy) ^ 2 = vx ^ 2 + vy ^ 2 := by
        rw [harg]; exact Real.sq_sqrt (by positivity)
      refine ⟨by rw [harg], hpos, rfl, rfl, ?_⟩
      field_simp
      linarith [hsq]

/-- C8: every state returned by `step` satisfies the body-state invariant:
either `speed = hypot(vx, vy)` with `(dx, dy)` the unit vector of `(vx, vy)`,
or `dx`, `dy`, `speed`, `vx`, `vy` are all simultaneously zero, in both the
contact and the airborne branch. -/
theorem step_speedInvariant (s : BodyState) (obs : List Obstacle) (opts : StepOpts) :
    SpeedInvariant (step s obs opts) := by
  rw [step_def]
  cases checkCircleCollisions (tentativeX s opts) (tentativeY s opts) s.r obs with
  | nil => exact finalizeState_speedInvariant _ _ _ _ _ _
  | cons hf hr => exact finalizeState_speedInvariant _ _ _ _ _ _

/-- C10: the returned state is identical for any two settings of the world
bounds: the bounds reflection rewrites only the local direction components,
which are dead, so the bounds never influence any output field. -/
theorem step_bounds_noninterference (s : BodyState) (obs : List Obstacle)
    (g f st re tf tr : ℝ) (b1 b2 : Bounds) :
    step s obs ⟨g, f, b1, st, re, tf, tr⟩ = step s obs ⟨g, f, b2, st, re, tf, tr⟩ := rfl

/-- C6: the outgoing normal-velocity scalar of a resolved contact follows the
spec's two-branch policy on the body's relative, obstacle and
gravity-inclusive normal velocities, and the obstacle's contact-point
velocity is the angular cross product about its rotation center, zero for
non-rotating obstacles. -/
theorem new_vn_scalar_spec (vx0 vy0 g rest ox oy nx ny : ℝ) :
    new_vn_scalar vx0 vy0 g rest ox oy nx ny =
      specNormalScalar ((vx0 - ox) * nx + (vy0 - oy) * ny) (ox * nx + oy * ny)
        (vx0 * nx + (vy0 + g) * ny) rest
    ∧ ∀ (o : Obstacle) (cpx cpy : ℝ), obsVelAt o cpx cpy = specObsVel o cpx cpy := by
  refine ⟨rfl, ?_⟩
  intro o cpx cpy
  cases o with
  | segment x1 y1 x2 y2 th ω cX cY =>
      by_cases hω : ω = 0
      · simp [obsVelAt, specObsVel, Obstacle.angularVelocity, hω]
      · simp [obsVelAt, specObsVel, Obstacle.angularVelocity, Obstacle.centerX,
          Obstacle.centerY, hω]
  | rect x y w h =>
      simp [obsVelAt, specObsVel, Obstacle.angularVelocity]

/-- C7: the outgoing tangential-velocity scalar of a resolved contact equals
the spec's friction/retention blend of the relative tangential velocity plus
the obstacle's tangential velocity, with the anti-creep clamp to exactly 0. -/
theorem vAlongFinal_spec (g tf ret vx0 vy0 ox oy tx ty : ℝ) :
    vAlongFinal g tf ret vx0 vy0 ox oy tx ty =
      specTangentialScalar g tf ret ((vx0 - ox) * tx + (vy0 - oy) * ty)
        (ox * tx + oy * ty) ty := rfl

lemma sqrt_le_of_sq_le {a r : ℝ} (hr : 0 ≤ r) (h : a ≤ r * r) : Real.sqrt a ≤ r := by
  calc Real.sqrt a ≤ Real.sqrt (r * r) := Real.sqrt_le_sqrt h
  _ = r := by rw [show r * r = r ^ 2 by ring, Real.sqrt_sq hr]

lemma sq_le_of_sqrt_le {a r : ℝ} (ha : 0 ≤ a) (h : Real.sqrt a ≤ r) : a ≤ r * r := by
  nlinarith [Real.sq_sqrt ha, Real.sqrt_nonneg a]

lemma unit_normal {a b : ℝ} (hd : Real.sqrt (a * a + b * b) ≠ 0) :
    (a / Real.sqrt (a * a + b * b)) ^ 2 + (b / Real.sqrt (a * a + b * b)) ^ 2 = 1 := by
  have hnn : (0 : ℝ) ≤ a * a + b * b := add_nonneg (mul_self_nonneg a) (mul_self_nonneg b)
  have hsq : Real.sqrt (a * a + b * b) ^ 2 = a * a + b * b := Real.sq_sqrt hnn
  have hne : a * a + b * b ≠ 0 := by
    intro h0; apply hd; rw [h0, Real.sqrt_zero]
  rw [div_pow, div_pow, div_add_div_same, hsq, div_eq_one_iff_eq hne]
  ring

/-- Membership in the detector output: exactly the hits produced per obstacle. -/
lemma mem_checkCircleCollisions {cx cy cr : ℝ} {obs : List Obstacle} {h : Hit} :
    h ∈ checkCircleCollisions cx cy cr obs ↔ ∃ o ∈ obs, hitFor cx cy cr o = some h := by
  induction obs with
  | nil => simp [checkCircleCollisions]
  | cons o rest ih =>
      cases hf : hitFor cx cy cr o with
      | none =>
          simp only [checkCircleCollisions, hf, ih, List.mem_cons]
          constructor
          · rintro ⟨o2, ho2, heq⟩; exact ⟨o2, Or.inr ho2, heq⟩
          · rintro ⟨o2, ho2 | ho2, heq⟩
            · subst ho2; exact absurd heq (by simp [hf])
            · exact ⟨o2, ho2, heq⟩
      | some h2 =>
          simp only [checkCircleCollisions, hf, List.mem_cons, ih]
          constructor
          · rintro (rfl | ⟨o2, ho2, heq⟩)
            · exact ⟨o, Or.inl rfl, hf⟩
            · exact ⟨o2, Or.inr ho2, heq⟩
          · rintro ⟨o2, ho2 | ho2, heq⟩
            · subst ho2; rw [hf] at heq; exact Or.inl (Option.some.inj heq).symm
            · exact Or.inr ⟨o2, ho2, heq⟩

/-- A hit produced for an obstacle records that obstacle as its source. -/
lemma hitFor_source {cx cy cr : ℝ} {o : Obstacle} {h : Hit}
    (heq : hitFor cx cy cr o = some h) : h.source = o := by
  cases o with
  | segment x1 y1 x2 y2 th ω cX cY =>
      simp only [hitFor] at heq
      split at heq
      · injection heq with heq; subst heq; rfl
      · exact Option.noConfusion heq
  | rect x y w hh =>
      simp only [hitFor] at heq
      split at heq
      · injection heq with heq; subst heq; rfl
      · exact Option.noConfusion heq

/-- Per-obstacle contract of the detector loop body: a hit is produced exactly
when the distance to the closest obstacle point is at most the effective
radius, and the produced fields are as specified. -/
lemma hitFor_spec {cx cy cr : ℝ} {o : Obstacle} (hr : 0 ≤ effRadius cr o) :
    ((hitFor cx cy cr o).isSome ↔ distToObstacle cx cy o ≤ effRadius cr o)
    ∧ ∀ h, hitFor cx cy cr o = some h →
        h.penetration = effRadius cr o - distToObstacle cx cy o ∧
        h.dist = distToObstacle cx cy o ∧
        (h.cpx, h.cpy) = closestPt cx cy o ∧
        (distToObstacle cx cy o = 0 → h.nx = 0 ∧ h.ny = 0) ∧
        (distToObstacle cx cy o ≠ 0 →
          h.nx = (cx - (closestPt cx cy o).1) / distToObstacle cx cy o ∧
          h.ny = (cy - (closestPt cx cy o).2) / distToObstacle cx cy o ∧
          h.nx ^ 2 + h.ny ^ 2 = 1) := by
  cases o with
  | segment x1 y1 x2 y2 th ω cX cY =>
      simp only [hitFor, effRadius, distToObstacle, closestPt] at *
      constructor
      · constructor
        · intro hsome
          split at hsome
          · next hc => exact sqrt_le_of_sq_le hr hc
          · simp at hsome
        · intro hd
          rw [if_pos (sq_le_of_sqrt_le (add_nonneg (mul_self_nonneg _) (mul_self_nonneg _)) hd)]
          rfl
      · intro h heq
        split at heq
        · next hc =>
            injection heq with heq; subst heq
            dsimp only
            refine ⟨rfl, rfl, rfl, ?_, ?_⟩
            · intro hd; rw [if_pos hd, if_pos hd]; exact ⟨rfl, rfl⟩
            · intro hd
              rw [if_neg hd, if_neg hd]
              exact ⟨rfl, rfl, unit_normal hd⟩
        · exact Option.noConfusion heq
  | rect x y w hh =>
      simp only [hitFor, effRadius, distToObstacle, closestPt] at *
      constructor
      · constructor
        · intro hsome
          split at hsome
          · next hc => exact sqrt_le_of_sq_le hr hc
          · simp at hsome
        · intro hd
          rw [if_pos (sq_le_of_sqrt_le (add_nonneg (mul_self_nonneg _) (mul_self_nonneg _)) hd)]
          rfl
      · intro h heq
        split at heq
        · next hc =>
            injection heq with heq; subst heq
            dsimp only
            refine ⟨rfl, rfl, rfl, ?_, ?_⟩
            · intro hd; rw [if_pos hd, if_pos hd]; exact ⟨rfl, rfl⟩
            · intro hd
              rw [if_neg hd, if_neg hd]
              exact ⟨rfl, rfl, unit_normal hd⟩
        · exact Option.noConfusion heq

/-- Effective radius is nonnegative for a nonnegative body radius and
nonnegative thickness. -/
lemma effRadius_nonneg {cr : ℝ} {o : Obstacle} (hcr : 0 ≤ cr)
    (hth : o.thicknessNonneg) : 0 ≤ effRadius cr o := by
  cases o with
  | segment x1 y1 x2 y2 th ω cX cY =>
      simp only [Obstacle.thicknessNonneg] at hth
      simp only [effRadius]; linarith
  | rect x y w hh => exact hcr

/-- C2: for every obstacle in the list passed to the detector, a hit is
emitted if and only if the distance from the body center to the closest
obstacle point is at most the effective radius (body radius + half thickness
for segments, body radius for rectangles), with penetration = effective
radius minus distance (nonnegative under nonnegative radius and thickness)
and normal the unit vector from the closest point toward the body center,
degrading to the zero vector at distance exactly 0. -/
theorem detector_contract (cx cy cr : ℝ) (obs : List Obstacle) (hcr : 0 ≤ cr)
    (hth : ∀ o ∈ obs, o.thicknessNonneg) (o : Obstacle) (ho : o ∈ obs) :
    ((∃ h ∈ checkCircleCollisions cx cy cr obs, h.source = o) ↔
       distToObstacle cx cy o ≤ effRadius cr o)
    ∧ ∀ h ∈ checkCircleCollisions cx cy cr obs, h.source = o →
        h.penetration = effRadius cr o - distToObstacle cx cy o ∧
        0 ≤ h.penetration ∧
        (h.cpx, h.cpy) = closestPt cx cy o ∧
        (distToObstacle cx cy o = 0 → h.nx = 0 ∧ h.ny = 0) ∧
        (distToObstacle cx cy o ≠ 0 →
          h.nx = (cx - (closestPt cx cy o).1) / distToObstacle cx cy o ∧
          h.ny = (cy - (closestPt cx cy o).2) / distToObstacle cx cy o ∧
          h.nx ^ 2 + h.ny ^ 2 = 1) := by
  have hre : 0 ≤ effRadius cr o := effRadius_nonneg hcr (hth o ho)
  obtain ⟨hiff, hfields⟩ := @hitFor_spec cx cy cr _ hre
  constructor
  · constructor
    · rintro ⟨h, hmem, hsrc⟩
      obtain ⟨o2, ho2, heq⟩ := mem_checkCircleCollisions.mp hmem
      have : o2 = o := by rw [← hsrc, hitFor_source heq]
      subst this
      exact hiff.mp (by rw [heq]; rfl)
    · intro hd
      obtain ⟨h, heq⟩ := Option.isSome_iff_exists.mp (hiff.mpr hd)
      exact ⟨h, mem_checkCircleCollisions.mpr ⟨o, ho, heq⟩, hitFor_source heq⟩
  · intro h hmem hsrc
    obtain ⟨o2, ho2, heq⟩ := mem_checkCircleCollisions.mp hmem
    have : o2 = o := by rw [← hsrc, hitFor_source heq]
    subst this
    obtain ⟨hpen, hdist, hcp, hzero, hunit⟩ := hfields h heq
    refine ⟨hpen, ?_, hcp, hzero, hunit⟩
    rw [hpen]
    have hle := hiff.mp (by rw [heq]; rfl)
    linarith

/-- The selected hit is one of the detected hits. -/
lemma dominantHit_mem (h : Hit) (t : List Hit) : dominantHit h t ∈ h :: t := by
  induction t generalizing h with
  | nil => exact List.mem_singleton.mpr rfl
  | cons h2 rest ih =>
      show dominantHit (if h.penetration < h2.penetration then h2 else h) rest ∈ h :: h2 :: rest
      rcases List.mem_cons.mp (ih (if h.penetration < h2.penetration then h2 else h)) with heq | hm
      · rw [heq]
        by_cases hlt : h.penetration < h2.penetration
        · rw [if_pos hlt]; exact List.mem_cons_of_mem _ (List.mem_cons_self _ _)
        · rw [if_neg hlt]; exact List.mem_cons_self _ _
      · exact List.mem_cons_of_mem _ (List.mem_cons_of_mem _ hm)

/-- The selected hit attains the maximal penetration among all hits. -/
lemma le_dominantHit (h : Hit) (t : List Hit) :
    ∀ h2 ∈ h :: t, h2.penetration ≤ (dominantHit h t).penetration := by
  induction t generalizing h with
  | nil =>
      intro h2 hm
      rw [List.mem_singleton.mp hm]
      exact le_refl _
  | cons hb rest ih =>
      intro h2 hm
      show h2.penetration ≤ (dominantHit (if h.penetration < hb.penetration then hb else h) rest).penetration
      have hbase : h.penetration ≤ (if h.penetration < hb.penetration then hb else h).penetration
          ∧ hb.penetration ≤ (if h.penetration < hb.penetration then hb else h).penetration := by
        by_cases hlt : h.penetration < hb.penetration
        · rw [if_pos hlt]; exact ⟨le_of_lt hlt, le_refl _⟩
        · rw [if_neg hlt]; exact ⟨le_refl _, not_lt.mp hlt⟩
      rcases List.mem_cons.mp hm with rfl | hm2
      · exact le_trans hbase.1 (ih _ _ (List.mem_cons_self _ _))
      · rcases List.mem_cons.mp hm2 with rfl | hm3
        · exact le_trans hbase.2 (ih _ _ (List.mem_cons_self _ _))
        · exact ih _ h2 (List.mem_cons_of_mem _ hm3)

lemma finalizeState_contact (st nX nY vx vy : ℝ) (c : Bool) :
    (finalizeState st nX nY vx vy c).contact = c := by
  simp only [finalizeState]; split <;> rfl

lemma finalizeState_x (st nX nY vx vy : ℝ) (c : Bool) :
    (finalizeState st nX nY vx vy c).x = nX := by
  simp only [finalizeState]; split <;> rfl

lemma finalizeState_y (st nX nY vx vy : ℝ) (c : Bool) :
    (finalizeState st nX nY vx vy c).y = nY := by
  simp only [finalizeState]; split <;> rfl

lemma resolveContact_contact (opts : StepOpts) (vx0 vy0 nX nY : ℝ) (h : Hit) :
    (resolveContact opts vx0 vy0 nX nY h).contact = true := by
  unfold resolveContact
  exact finalizeState_contact _ _ _ _ _ _

/-- C4: `step` reports `contact = true` exactly when the detector finds at
least one hit against the gravity-advanced tentative position, and the single
hit selected for resolution is one of the detected hits and attains the
greatest penetration among them. -/
theorem contact_flag_and_dominant (s : BodyState) (obs : List Obstacle) (opts : StepOpts) :
    ((step s obs opts).contact = true ↔
        checkCircleCollisions (tentativeX s opts) (tentativeY s opts) s.r obs ≠ [])
    ∧ ∀ hf hr,
        checkCircleCollisions (tentativeX s opts) (tentativeY s opts) s.r obs = hf :: hr →
        dominantHit hf hr ∈ hf :: hr ∧
        ∀ h2 ∈ hf :: hr, h2.penetration ≤ (dominantHit hf hr).penetration := by
  constructor
  · have hstep := step_def s obs opts
    cases hl : checkCircleCollisions (tentativeX s opts) (tentativeY s opts) s.r obs with
    | nil =>
        rw [hl] at hstep
        rw [hstep, finalizeState_contact]
        simp
    | cons hf hr =>
        rw [hl] at hstep
        rw [hstep, resolveContact_contact]
        simp
  · intro hf hr _
    exact ⟨dominantHit_mem hf hr, le_dominantHit hf hr⟩

/-- Every hit produced by the detector has a nonnegative penetration when the
body radius and all obstacle thicknesses are nonnegative. -/
lemma pen_nonneg_of_mem {cx cy cr : ℝ} {obs : List Obstacle} {h : Hit} (hcr : 0 ≤ cr)
    (hth : ∀ o ∈ obs, o.thicknessNonneg)
    (hmem : h ∈ checkCircleCollisions cx cy cr obs) : 0 ≤ h.penetration := by
  obtain ⟨o, ho, heq⟩ := mem_checkCircleCollisions.mp hmem
  have hre := effRadius_nonneg hcr (hth o ho)
  obtain ⟨hiff, hfields⟩ := @hitFor_spec cx cy cr _ hre
  obtain ⟨hpen, -⟩ := hfields h heq
  have hle := hiff.mp (by rw [heq]; rfl)
  rw [hpen]
  linarith

/-- C5: whenever `step` resolves a contact, the returned position is the
gravity-advanced tentative position displaced along the dominant hit's normal
by its penetration depth, for segment and rectangle obstacles alike. -/
theorem contact_position_pushout (s : BodyState) (obs : List Obstacle) (opts : StepOpts)
    (hcr : 0 ≤ s.r) (hth : ∀ o ∈ obs, o.thicknessNonneg) (hf : Hit) (hr : List Hit)
    (hl : checkCircleCollisions (tentativeX s opts) (tentativeY s opts) s.r obs = hf :: hr) :
    (step s obs opts).x
        = tentativeX s opts + (dominantHit hf hr).nx * (dominantHit hf hr).penetration
    ∧ (step s obs opts).y
        = tentativeY s opts + (dominantHit hf hr).ny * (dominantHit hf hr).penetration := by
  have hstep := step_def s obs opts
  rw [hl] at hstep
  have hpen : 0 ≤ (dominantHit hf hr).penetration :=
    pen_nonneg_of_mem hcr hth (by rw [hl]; exact dominantHit_mem hf hr)
  rw [hstep]
  simp only [resolveContact]
  rw [finalizeState_x, finalizeState_y, max_eq_right hpen]
  exact ⟨rfl, rfl⟩

/-- Normals recorded by the detector are zero or unit. -/
lemma norm_cases (a b : ℝ) :
    ((if Real.sqrt (a * a + b * b) = 0 then (0 : ℝ) else a / Real.sqrt (a * a + b * b)) = 0 ∧
     (if Real.sqrt (a * a + b * b) = 0 then (0 : ℝ) else b / Real.sqrt (a * a + b * b)) = 0) ∨
    (if Real.sqrt (a * a + b * b) = 0 then (0 : ℝ) else a / Real.sqrt (a * a + b * b)) ^ 2 +
      (if Real.sqrt (a * a + b * b) = 0 then (0 : ℝ) else b / Real.sqrt (a * a + b * b)) ^ 2 = 1 := by
  by_cases hd : Real.sqrt (a * a + b * b) = 0
  · left; rw [if_pos hd, if_pos hd]; exact ⟨rfl, rfl⟩
  · right; rw [if_neg hd, if_neg hd]; exact unit_normal hd

/-- The normal of any detector hit is either the zero vector or a unit
vector. -/
lemma hitFor_norm {cx cy cr : ℝ} {o : Obstacle} {h : Hit}
    (heq : hitFor cx cy cr o = some h) :
    (h.nx = 0 ∧ h.ny = 0) ∨ h.nx ^ 2 + h.ny ^ 2 = 1 := by
  cases o with
  | segment x1 y1 x2 y2 th ω cX cY =>
      simp only [hitFor] at heq
      split at heq
      · injection heq with heq; subst heq; dsimp only
        exact norm_cases _ _
      · exact Option.noConfusion heq
  | rect x y w hh =>
      simp only [hitFor] at heq
      split at heq
      · injection heq with heq; subst heq; dsimp only
        exact norm_cases _ _
      · exact Option.noConfusion heq

/-- The defensive strip followed by finalization leaves the outgoing velocity
with a nonnegative component along any zero-or-unit normal. -/
lemma finalize_strip_dot_nonneg (st nX nY a b nx ny : ℝ) (c : Bool)
    (hn : (nx = 0 ∧ ny = 0) ∨ nx ^ 2 + ny ^ 2 = 1) :
    0 ≤ (finalizeState st nX nY (if a * nx + b * ny < 0 then a - nx * (a * nx + b * ny) else a)
           (if a * nx + b * ny < 0 then b - ny * (a * nx + b * ny) else b) c).vx * nx
       + (finalizeState st nX nY (if a * nx + b * ny < 0 then a - nx * (a * nx + b * ny) else a)
           (if a * nx + b * ny < 0 then b - ny * (a * nx + b * ny) else b) c).vy * ny := by
  have key : 0 ≤ (if a * nx + b * ny < 0 then a - nx * (a * nx + b * ny) else a) * nx
      + (if a * nx + b * ny < 0 then b - ny * (a * nx + b * ny) else b) * ny := by
    by_cases hlt : a * nx + b * ny < 0
    · rw [if_pos hlt, if_pos hlt]
      rcases hn with ⟨h1, h2⟩ | h1
      · rw [h1, h2]; ring_nf; exact le_refl 0
      · have hexp : (a - nx * (a * nx + b * ny)) * nx + (b - ny * (a * nx + b * ny)) * ny
            = (a * nx + b * ny) * (1 - (nx ^ 2 + ny ^ 2)) := by ring
        rw [hexp, h1]
        simp
    · rw [if_neg hlt, if_neg hlt]
      exact not_lt.mp hlt
  generalize hA : (if a * nx + b * ny < 0 then a - nx * (a * nx + b * ny) else a) = A at key ⊢
  generalize hB : (if a * nx + b * ny < 0 then b - ny * (a * nx + b * ny) else b) = B at key ⊢
  simp only [finalizeState]
  split
  · simp
  · exact key

/-- C9: whenever `step` resolves a contact, the returned velocity has a
nonnegative dot product with the dominant hit's normal: any residual
component pushing into the surface is removed before the state is returned. -/
theorem contact_velocity_nonpenetrating (s : BodyState) (obs : List Obstacle) (opts : StepOpts)
    (hf : Hit) (hr : List Hit)
    (hl : checkCircleCollisions (tentativeX s opts) (tentativeY s opts) s.r obs = hf :: hr) :
    0 ≤ (step s obs opts).vx * (dominantHit hf hr).nx
       + (step s obs opts).vy * (dominantHit hf hr).ny := by
  have hstep := step_def s obs opts
  rw [hl] at hstep
  have hmem : dominantHit hf hr ∈ checkCircleCollisions (tentativeX s opts) (tentativeY s opts) s.r obs := by
    rw [hl]; exact dominantHit_mem hf hr
  obtain ⟨o, ho, heq⟩ := mem_checkCircleCollisions.mp hmem
  have hn := hitFor_norm heq
  rw [hstep]
  simp only [resolveContact]
  exact finalize_strip_dot_nonneg _ _ _ _ _ _ _ _ hn

/-- Clamping to [0, 1] picks the point of the interval closest to `s`. -/
lemma clamp_sq_dist_le (s t : ℝ) (h0 : 0 ≤ t) (h1 : t ≤ 1) :
    (max 0 (min 1 s) - s) ^ 2 ≤ (t - s) ^ 2 := by
  rcases le_total s 0 with hs | hs
  · rw [min_eq_right (le_trans hs zero_le_one), max_eq_left hs]
    nlinarith [mul_nonneg h0 (by linarith : (0 : ℝ) ≤ t - 2 * s)]
  · rcases le_total 1 s with hs1 | hs1
    · rw [min_eq_left hs1, max_eq_right zero_le_one]
      nlinarith [mul_nonneg (by linarith : (0 : ℝ) ≤ 1 - t) (by linarith : (0 : ℝ) ≤ 2 * s - 1 - t)]
    · rw [min_eq_right hs1, max_eq_right hs]
      simpa using sq_nonneg (t - s)

/-- Denominator-cleared form of the clamp optimality. -/
lemma clamp_key (c D t : ℝ) (hD : 0 < D) (h0 : 0 ≤ t) (h1 : t ≤ 1) :
    (max 0 (min 1 (c / D)) * D - c) ^ 2 ≤ (t * D - c) ^ 2 := by
  have hkey := clamp_sq_dist_le (c / D) t h0 h1
  have h2 := mul_le_mul_of_nonneg_right hkey (sq_nonneg D)
  have hne : D ≠ 0 := ne_of_gt hD
  calc (max 0 (min 1 (c / D)) * D - c) ^ 2
      = (max 0 (min 1 (c / D)) - c / D) ^ 2 * D ^ 2 := by field_simp
    _ ≤ (t - c / D) ^ 2 * D ^ 2 := h2
    _ = (t * D - c) ^ 2 := by field_simp

/-- Squared-distance comparison for points of the segment, given the
denominator-cleared clamp optimality. -/
lemma seg_min_aux (px py x1 y1 x2 y2 u t : ℝ)
    (hD : 0 < (x2 - x1) * (x2 - x1) + (y2 - y1) * (y2 - y1))
    (hkey2 : (u * ((x2 - x1) * (x2 - x1) + (y2 - y1) * (y2 - y1))
          - ((px - x1) * (x2 - x1) + (py - y1) * (y2 - y1))) ^ 2
        ≤ (t * ((x2 - x1) * (x2 - x1) + (y2 - y1) * (y2 - y1))
          - ((px - x1) * (x2 - x1) + (py - y1) * (y2 - y1))) ^ 2) :
    (px - (x1 + (x2 - x1) * u)) ^ 2 + (py - (y1 + (y2 - y1) * u)) ^ 2
      ≤ (px - (x1 + (x2 - x1) * t)) ^ 2 + (py - (y1 + (y2 - y1) * t)) ^ 2 := by
  have h3 : ((px - (x1 + (x2 - x1) * t)) ^ 2 + (py - (y1 + (y2 - y1) * t)) ^ 2
        - ((px - (x1 + (x2 - x1) * u)) ^ 2 + (py - (y1 + (y2 - y1) * u)) ^ 2))
        * ((x2 - x1) * (x2 - x1) + (y2 - y1) * (y2 - y1))
      = (t * ((x2 - x1) * (x2 - x1) + (y2 - y1) * (y2 - y1))
          - ((px - x1) * (x2 - x1) + (py - y1) * (y2 - y1))) ^ 2
        - (u * ((x2 - x1) * (x2 - x1) + (y2 - y1) * (y2 - y1))
          - ((px - x1) * (x2 - x1) + (py - y1) * (y2 - y1))) ^ 2 := by ring
  have h4 : 0 * ((x2 - x1) * (x2 - x1) + (y2 - y1) * (y2 - y1))
      ≤ ((px - (x1 + (x2 - x1) * t)) ^ 2 + (py - (y1 + (y2 - y1) * t)) ^ 2
        - ((px - (x1 + (x2 - x1) * u)) ^ 2 + (py - (y1 + (y2 - y1) * u)) ^ 2))
        * ((x2 - x1) * (x2 - x1) + (y2 - y1) * (y2 - y1)) := by
    rw [h3]
    linarith
  have h5 := le_of_mul_le_mul_right h4 hD
  linarith

/-- C3: for distinct endpoints, `closestPointOnSegment` returns the clamped
parametric projection, which minimizes the Euclidean distance from the query
point over the finite segment; for coincident endpoints it returns the first
endpoint with `t = 0`. -/
theorem closestPointOnSegment_spec (px py x1 y1 x2 y2 : ℝ) :
    (¬(x1 = x2 ∧ y1 = y2) →
      (closestPointOnSegment px py x1 y1 x2 y2).t
          = max 0 (min 1 (((px - x1) * (x2 - x1) + (py - y1) * (y2 - y1))
              / ((x2 - x1) * (x2 - x1) + (y2 - y1) * (y2 - y1))))
      ∧ (closestPointOnSegment px py x1 y1 x2 y2).x
          = x1 + (x2 - x1) * (closestPointOnSegment px py x1 y1 x2 y2).t
      ∧ (closestPointOnSegment px py x1 y1 x2 y2).y
          = y1 + (y2 - y1) * (closestPointOnSegment px py x1 y1 x2 y2).t
      ∧ ∀ t, 0 ≤ t → t ≤ 1 →
          Real.sqrt ((px - (closestPointOnSegment px py x1 y1 x2 y2).x) ^ 2
              + (py - (closestPointOnSegment px py x1 y1 x2 y2).y) ^ 2)
            ≤ Real.sqrt ((px - (x1 + (x2 - x1) * t)) ^ 2 + (py - (y1 + (y2 - y1) * t)) ^ 2))
    ∧ ((x1 = x2 ∧ y1 = y2) →
        closestPointOnSegment px py x1 y1 x2 y2 = ⟨x1, y1, 0⟩) := by
  constructor
  · intro hne
    have hd : (x2 - x1) * (x2 - x1) + (y2 - y1) * (y2 - y1) ≠ 0 := by
      intro h0
      apply hne
      have hx : (x2 - x1) * (x2 - x1) = 0 := by
        nlinarith [mul_self_nonneg (x2 - x1), mul_self_nonneg (y2 - y1)]
      have hy : (y2 - y1) * (y2 - y1) = 0 := by
        nlinarith [mul_self_nonneg (x2 - x1), mul_self_nonneg (y2 - y1)]
      exact ⟨(sub_eq_zero.mp (mul_self_eq_zero.mp hx)).symm,
             (sub_eq_zero.mp (mul_self_eq_zero.mp hy)).symm⟩
    have hDpos : 0 < (x2 - x1) * (x2 - x1) + (y2 - y1) * (y2 - y1) :=
      lt_of_le_of_ne (add_nonneg (mul_self_nonneg _) (mul_self_nonneg _)) (Ne.symm hd)
    simp only [closestPointOnSegment, if_neg hd]
    refine ⟨trivial, trivial, trivial, ?_⟩
    intro t h0 h1
    apply Real.sqrt_le_sqrt
    exact seg_min_aux px py x1 y1 x2 y2 _ t hDpos (clamp_key _ _ t hDpos h0 h1)
  · rintro ⟨hx, hy⟩
    subst hx; subst hy
    simp [closestPointOnSegment]

/-- C1 (failing-input evaluation): a body at `x = 95` with radius `10`,
`vx = 20` and world width `100` is at the right bound with outward velocity,
yet the returned state keeps `vx = 20` unflipped and its position `x = 115`
is beyond the bound: the bounds check flips only the dead local direction
components, so the claimed reflection and containment do not happen. -/
theorem bounds_reflection_ineffective :
    (step ⟨95, 50, 1, 0, 5, 10, some 20, some 0⟩ []
        ⟨0, 0.995, ⟨100, 100⟩, 0, 0.3, 0.995, 0.6⟩).vx = 20
    ∧ (step ⟨95, 50, 1, 0, 5, 10, some 20, some 0⟩ []
        ⟨0, 0.995, ⟨100, 100⟩, 0, 0.3, 0.995, 0.6⟩).x = 115
    ∧ (100 : ℝ) < (step ⟨95, 50, 1, 0, 5, 10, some 20, some 0⟩ []
        ⟨0, 0.995, ⟨100, 100⟩, 0, 0.3, 0.995, 0.6⟩).x := by
  have h1 : step (⟨95, 50, 1, 0, 5, 10, some 20, some 0⟩ : BodyState) []
      (⟨0, 0.995, ⟨100, 100⟩, 0, 0.3, 0.995, 0.6⟩ : StepOpts)
      = finalizeState 0 115 50 20 0 false := by
    rw [step_def]
    norm_num [checkCircleCollisions, tentativeX, tentativeY, workVx, workVy]
  have h2 : (finalizeState (0 : ℝ) 115 50 20 0 false).vx = 20 := by
    simp only [finalizeState]
    rw [if_neg (not_lt.mpr (Real.sqrt_nonneg _))]
  refine ⟨?_, ?_, ?_⟩
  · rw [h1, h2]
  · rw [h1, finalizeState_x]
  · rw [h1, finalizeState_x]; norm_num

/-- Detector evaluation in a concrete falling-onto-a-rectangle scenario:
body of radius 5 whose tentative position is (0, 1), rectangle [-10, 10] ×
[4, 14], closest point (0, 4), distance 3, penetration 2, normal (0, -1). -/
lemma witnessScenario_hits :
    checkCircleCollisions
      (tentativeX ⟨0, 0, 0, 0, 0, 5, some 0, some 0⟩ ⟨1, 0.995, ⟨100, 100⟩, 0.02, 0.3, 0.995, 0.6⟩)
      (tentativeY ⟨0, 0, 0, 0, 0, 5, some 0, some 0⟩ ⟨1, 0.995, ⟨100, 100⟩, 0.02, 0.3, 0.995, 0.6⟩)
      (5 : ℝ) [Obstacle.rect (-10) 4 20 10]
      = [⟨Obstacle.rect (-10) 4 20 10, "rect", 0, 4, 3, 0, -1, 2⟩] := by
  have h9 : Real.sqrt (9 : ℝ) = 3 := by
    rw [show (9 : ℝ) = 3 ^ 2 by norm_num]
    exact Real.sqrt_sq (by norm_num)
  have htx : tentativeX ⟨0, 0, 0, 0, 0, 5, some 0, some 0⟩
      ⟨1, 0.995, ⟨100, 100⟩, 0.02, 0.3, 0.995, 0.6⟩ = 0 := by
    norm_num [tentativeX, workVx]
  have hty : tentativeY ⟨0, 0, 0, 0, 0, 5, some 0, some 0⟩
      ⟨1, 0.995, ⟨100, 100⟩, 0.02, 0.3, 0.995, 0.6⟩ = 1 := by
    norm_num [tentativeY, workVy]
  have hhit : hitFor 0 1 5 (Obstacle.rect (-10) 4 20 10)
      = some ⟨Obstacle.rect (-10) 4 20 10, "rect", 0, 4, 3, 0, -1, 2⟩ := by
    simp only [hitFor]
    norm_num [min_def, max_def, h9]
  rw [htx, hty]
  simp only [checkCircleCollisions, hhit]

/-- Witness for C2 at a concrete segment scenario: body center (0, 2) of
radius 1 against the thick segment from (-1, 0) to (1, 0) with thickness 4. -/
theorem detector_contract_witness :
    ((∃ h ∈ checkCircleCollisions 0 2 1 [Obstacle.segment (-1) 0 1 0 4 0 0 0],
        h.source = Obstacle.segment (-1) 0 1 0 4 0 0 0) ↔
      distToObstacle 0 2 (Obstacle.segment (-1) 0 1 0 4 0 0 0)
        ≤ effRadius 1 (Obstacle.segment (-1) 0 1 0 4 0 0 0))
    ∧ ∀ h ∈ checkCircleCollisions 0 2 1 [Obstacle.segment (-1) 0 1 0 4 0 0 0],
        h.source = Obstacle.segment (-1) 0 1 0 4 0 0 0 →
        h.penetration = effRadius 1 (Obstacle.segment (-1) 0 1 0 4 0 0 0)
            - distToObstacle 0 2 (Obstacle.segment (-1) 0 1 0 4 0 0 0) ∧
        0 ≤ h.penetration ∧
        (h.cpx, h.cpy) = closestPt 0 2 (Obstacle.segment (-1) 0 1 0 4 0 0 0) ∧
        (distToObstacle 0 2 (Obstacle.segment (-1) 0 1 0 4 0 0 0) = 0 →
          h.nx = 0 ∧ h.ny = 0) ∧
        (distToObstacle 0 2 (Obstacle.segment (-1) 0 1 0 4 0 0 0) ≠ 0 →
          h.nx = (0 - (closestPt 0 2 (Obstacle.segment (-1) 0 1 0 4 0 0 0)).1)
              / distToObstacle 0 2 (Obstacle.segment (-1) 0 1 0 4 0 0 0) ∧
          h.ny = (2 - (closestPt 0 2 (Obstacle.segment (-1) 0 1 0 4 0 0 0)).2)
              / distToObstacle 0 2 (Obstacle.segment (-1) 0 1 0 4 0 0 0) ∧
          h.nx ^ 2 + h.ny ^ 2 = 1) :=
  detector_contract 0 2 1 [Obstacle.segment (-1) 0 1 0 4 0 0 0] (by norm_num)
    (by
      intro o ho
      simp only [List.mem_singleton] at ho
      subst ho
      show (0 : ℝ) ≤ 4
      norm_num)
    (Obstacle.segment (-1) 0 1 0 4 0 0 0) (List.mem_singleton.mpr rfl)

/-- Witness for C3: the closest point on the segment from (-1, 0) to (1, 0)
to the query point (0, 2) is at most as far as the segment point at t = 1. -/
theorem closestPointOnSegment_spec_witness :
    Real.sqrt ((0 - (closestPointOnSegment 0 2 (-1) 0 1 0).x) ^ 2
        + (2 - (closestPointOnSegment 0 2 (-1) 0 1 0).y) ^ 2)
      ≤ Real.sqrt ((0 - ((-1) + (1 - (-1)) * 1)) ^ 2 + (2 - (0 + (0 - 0) * 1)) ^ 2) :=
  ((closestPointOnSegment_spec 0 2 (-1) 0 1 0).1 (by norm_num)).2.2.2 1
    (by norm_num) (by norm_num)

/-- Witness for C4 in the rectangle scenario: contact is reported exactly
when the detector output is non-empty, and the selected hit is maximal. -/
theorem contact_flag_and_dominant_witness :
    ((step ⟨0, 0, 0, 0, 0, 5, some 0, some 0⟩ [Obstacle.rect (-10) 4 20 10]
        ⟨1, 0.995, ⟨100, 100⟩, 0.02, 0.3, 0.995, 0.6⟩).contact = true ↔
      checkCircleCollisions
        (tentativeX ⟨0, 0, 0, 0, 0, 5, some 0, some 0⟩ ⟨1, 0.995, ⟨100, 100⟩, 0.02, 0.3, 0.995, 0.6⟩)
        (tentativeY ⟨0, 0, 0, 0, 0, 5, some 0, some 0⟩ ⟨1, 0.995, ⟨100, 100⟩, 0.02, 0.3, 0.995, 0.6⟩)
        (5 : ℝ) [Obstacle.rect (-10) 4 20 10] ≠ [])
    ∧ (dominantHit ⟨Obstacle.rect (-10) 4 20 10, "rect", 0, 4, 3, 0, -1, 2⟩ []
        ∈ [(⟨Obstacle.rect (-10) 4 20 10, "rect", 0, 4, 3, 0, -1, 2⟩ : Hit)]
      ∧ ∀ h2 ∈ [(⟨Obstacle.rect (-10) 4 20 10, "rect", 0, 4, 3, 0, -1, 2⟩ : Hit)],
          h2.penetration
            ≤ (dominantHit ⟨Obstacle.rect (-10) 4 20 10, "rect", 0, 4, 3, 0, -1, 2⟩ []).penetration) := by
  have hc := contact_flag_and_dominant ⟨0, 0, 0, 0, 0, 5, some 0, some 0⟩
    [Obstacle.rect (-10) 4 20 10] ⟨1, 0.995, ⟨100, 100⟩, 0.02, 0.3, 0.995, 0.6⟩
  exact ⟨hc.1, hc.2 _ _ witnessScenario_hits⟩

/-- Witness for C5 in the rectangle scenario: the returned position is the
tentative position pushed out along the dominant normal by its penetration. -/
theorem contact_position_pushout_witness :
    (step ⟨0, 0, 0, 0, 0, 5, some 0, some 0⟩ [Obstacle.rect (-10) 4 20 10]
        ⟨1, 0.995, ⟨100, 100⟩, 0.02, 0.3, 0.995, 0.6⟩).x
      = tentativeX ⟨0, 0, 0, 0, 0, 5, some 0, some 0⟩ ⟨1, 0.995, ⟨100, 100⟩, 0.02, 0.3, 0.995, 0.6⟩
        + (dominantHit ⟨Obstacle.rect (-10) 4 20 10, "rect", 0, 4, 3, 0, -1, 2⟩ []).nx
        * (dominantHit ⟨Obstacle.rect (-10) 4 20 10, "rect", 0, 4, 3, 0, -1, 2⟩ []).penetration
    ∧ (step ⟨0, 0, 0, 0, 0, 5, some 0, some 0⟩ [Obstacle.rect (-10) 4 20 10]
        ⟨1, 0.995, ⟨100, 100⟩, 0.02, 0.3, 0.995, 0.6⟩).y
      = tentativeY ⟨0, 0, 0, 0, 0, 5, some 0, some 0⟩ ⟨1, 0.995, ⟨100, 100⟩, 0.02, 0.3, 0.995, 0.6⟩
        + (dominantHit ⟨Obstacle.rect (-10) 4 20 10, "rect", 0, 4, 3, 0, -1, 2⟩ []).ny
        * (dominantHit ⟨Obstacle.rect (-10) 4 20 10, "rect", 0, 4, 3, 0, -1, 2⟩ []).penetration :=
  contact_position_pushout _ _ _ (by norm_num)
    (by
      intro o ho
      simp only [List.mem_singleton] at ho
      subst ho
      trivial)
    _ _ witnessScenario_hits

/-- Witness for C9 in the rectangle scenario: the returned velocity does not
point into the surface. -/
theorem contact_velocity_nonpenetrating_witness :
    0 ≤ (step ⟨0, 0, 0, 0, 0, 5, some 0, some 0⟩ [Obstacle.rect (-10) 4 20 10]
          ⟨1, 0.995, ⟨100, 100⟩, 0.02, 0.3, 0.995, 0.6⟩).vx
        * (dominantHit ⟨Obstacle.rect (-10) 4 20 10, "rect", 0, 4, 3, 0, -1, 2⟩ []).nx
      + (step ⟨0, 0, 0, 0, 0, 5, some 0, some 0⟩ [Obstacle.rect (-10) 4 20 10]
          ⟨1, 0.995, ⟨100, 100⟩, 0.02, 0.3, 0.995, 0.6⟩).vy
        * (dominantHit ⟨Obstacle.rect (-10) 4 20 10, "rect", 0, 4, 3, 0, -1, 2⟩ []).ny :=
  contact_velocity_nonpenetrating _ _ _ _ _ witnessScenario_hits

end Ballancier
